import Mathlib

/-!
Verification of the pot-js supervision core: a shallow embedding of the
Master Orchestrator (src/monitor/MasterMonitor.js), the control-channel
dispatch (src/utils/SocketsHelpers.js), and the discovery/remote-handle
layer (the Instance module), with theorems settling the spec claims.

Asynchronous JS is embedded as explicit state passing: every operation is
a pure function of the orchestrator state plus an input describing the
outcome of each suspension point (child stop results, socket probes,
remote state fetches).  Machine integers in the source are plain JS
numbers used as counters and indices, embedded as Nat.
-/

namespace PotJs

/-- A JS object observed through string property lookup; `none` is an
absent/undefined property. -/
abbrev StrMap := String → Option String

/-- Worker lifecycle status (spec 3: status of `crashState`). -/
inductive WStatus where
  | starting
  | running
  | sleeping
  | crashed
  | stopped
deriving DecidableEq

/-- The crash-tracking part of a worker monitor: status plus the crash
counter. -/
structure CrashState where
  status : WStatus
  crashes : Nat
deriving DecidableEq

/-- One supervised worker slot owned by the orchestrator
(MasterMonitor.js keeps these in `workerMonitors`). -/
structure Worker where
  instanceNum : Nat
  data : StrMap
  crashState : CrashState
  childPid : Option Nat

/-- Wire snapshot of one worker.  Modelled from the spec:
WorkerMonitor.js is not under src/; per spec 4.1, `toJSON()` is `data`
merged with `crashState` and the child pid, and caller-set state keys
live in `data`, never colliding with the monitor fields. -/
structure WorkerSnapshot where
  data : StrMap
  monitor : CrashState
  pid : Option Nat

/-- Snapshot a worker for the wire (`workerMonitor.toJSON()`). -/
def Worker.toJSON (w : Worker) : WorkerSnapshot :=
  ⟨w.data, w.crashState, w.childPid⟩

/-- Result of `MasterMonitor.spawn` (MasterMonitor.js:230-234). -/
structure SpawnResult where
  ok : Bool
  errors : List String
  added : List WorkerSnapshot

/-- Settlement of one `spawn` call (MasterMonitor.js:184-234): each
requested worker is one bootstrap promise which resolves exactly once
with the snapshot of the worker (`resolve(workerMonitor.toJSON())`),
`some e` recording that the START handler threw `e` (caught at line 217,
pushed onto `errors`, resolved anyway).  `Promise.all` joins every
bootstrap, then `ok := bootstraps.length > errors.length`.  The `Errors`
collection (utils/Errors.js, not under src/) is modelled per spec 7 as
the list of the pushed errors. -/
def spawnSettle (bootstraps : List (WorkerSnapshot × Option String)) : SpawnResult :=
  { ok := decide (bootstraps.length > (bootstraps.filterMap (fun b => b.2)).length)
    errors := bootstraps.filterMap (fun b => b.2)
    added := bootstraps.map (fun b => b.1) }

/-- Instance-number allocation at a worker START event
(MasterMonitor.js:187-191): `Math.max(...numbers) + 1` where `numbers`
is the list of sibling instance numbers, or `[0]` when there are no
siblings yet. -/
def allocNum (existing : List Nat) : Nat :=
  ((if existing.isEmpty then [0] else existing).foldl max 0) + 1

/-- One START handler against the sibling instance-number list: allocate
the next number, push, then re-sort ascending (MasterMonitor.js:191-192
and 211). -/
def startInsert (nums : List Nat) : List Nat :=
  (nums ++ [allocNum nums]).insertionSort (· ≤ ·)

/-- Sequential execution of the START handlers of a spawn batch of the
given size (the handler body up to its first await runs atomically on
the single event loop). -/
def startBatch : Nat → List Nat → List Nat
  | 0, nums => nums
  | n + 1, nums => startBatch n (startInsert nums)

/-- State owned by one Master Orchestrator: the worker list plus whether
the Control Channel server socket is bound (`this.socket`). -/
structure MasterState where
  workerMonitors : List Worker
  socketOpen : Bool

/-- The instance numbers of the current workers, in list order. -/
def MasterState.nums (st : MasterState) : List Nat :=
  st.workerMonitors.map (fun w => w.instanceNum)

/-- Observable effects of one `shutDown(instanceNum)` call
(MasterMonitor.js:300-338): `warned` is the log-and-return branch for a
missing instance; `error` a rejection propagated from the worker stop;
`exited` the `process.exit` code when the call terminated the host
process. -/
structure ShutDownEffect where
  warned : Bool := false
  error : Option String := none
  stoppedWorker : Option Nat := none
  removedPidFile : Bool := false
  removedSocketFile : Bool := false
  serverClosed : Bool := false
  exited : Option Nat := none
deriving DecidableEq

/-- MasterMonitor.shutDown with a concrete instance number
(MasterMonitor.js:309-338), with `stopFail n = some e` meaning this
worker monitor stop() rejects with `e`: find the worker (warn and return
when absent); stop it (a rejection propagates before any removal);
splice it out of `workerMonitors` and drop its PID record; when the list
became empty, remove the control-socket file, close the server when it
is bound, and `process.exit(0)`. -/
def shutDownOne (stopFail : Nat → Option String) (st : MasterState)
    (instanceNum : Nat) : MasterState × ShutDownEffect :=
  match st.workerMonitors.find? (fun w => w.instanceNum == instanceNum) with
  | none => (st, { warned := true })
  | some w =>
    match stopFail w.instanceNum with
    | some e => (st, { error := some e })
    | none =>
      if (st.workerMonitors.eraseP (fun x => x.instanceNum == instanceNum)).isEmpty then
        ({ workerMonitors :=
             st.workerMonitors.eraseP (fun x => x.instanceNum == instanceNum),
           socketOpen := false },
         { stoppedWorker := some instanceNum, removedPidFile := true,
           removedSocketFile := true, serverClosed := st.socketOpen,
           exited := some 0 })
      else
        ({ st with workerMonitors :=
             st.workerMonitors.eraseP (fun x => x.instanceNum == instanceNum) },
         { stoppedWorker := some instanceNum, removedPidFile := true })

/-- Result of `MasterMonitor.scale` (MasterMonitor.js:237-266):
`delegatedSpawn` records the scale-up branch `return await
this.spawn({instances: delta})`, whose settlement is `spawnSettle`. -/
structure ScaleResult where
  ok : Bool := true
  errors : List String := []
  removed : List WorkerSnapshot := []
  delegatedSpawn : Option Nat := none

/-- One victim of a scale-down (MasterMonitor.js:251-258):
`this.shutDown(workerMonitor.instanceNum).catch((err) =>
errors.push(err))` — the rejection, if any, is appended to the collected
errors, without aborting the remaining victims. -/
def scaleShutStep (stopFail : Nat → Option String)
    (acc : MasterState × List String) (w : Worker) : MasterState × List String :=
  ((shutDownOne stopFail acc.1 w.instanceNum).1,
   acc.2 ++ (shutDownOne stopFail acc.1 w.instanceNum).2.error.toList)

/-- MasterMonitor.scale (MasterMonitor.js:237-266).  `delta = target -
current`; zero is a no-op success; positive delegates to spawn; negative
takes `workerMonitors.slice(length + delta)` (the tail of the list, i.e.
`drop target`), snapshots each victim, and shuts each down collecting
per-worker rejections without aborting the rest.  `ensureInstanceNumber`
(utils/, not under src/) is per spec 4.2 the identity on the valid
instance counts considered here. -/
def scaleModel (stopFail : Nat → Option String) (st : MasterState)
    (target : Nat) : MasterState × ScaleResult :=
  let delta : Int := (target : Int) - st.workerMonitors.length
  if delta = 0 then (st, {})
  else if 0 < delta then
    (st, { delegatedSpawn := some (target - st.workerMonitors.length) })
  else
    let toRemove := st.workerMonitors.drop target
    let out := toRemove.foldl (scaleShutStep stopFail) (st, [])
    (out.1,
     { ok := out.2.isEmpty, errors := out.2,
       removed := toRemove.map Worker.toJSON })

/-- JS `Object.assign(base, upd)` observed through property lookup: a
property of `upd` overrides the one of `base`. -/
def objAssign (base upd : StrMap) : StrMap :=
  fun k =>
    match upd k with
    | some v => some v
    | none => base k

/-- MasterMonitor.state (MasterMonitor.js:268-277): with a `newState`
argument, merge it into every worker monitor `data`; either way return
the snapshot list.  `Instance.setState(s)` issues a STATE request with
`s`, `Instance.getState()` one with no argument (part_000:145-163), both
dispatched to this method. -/
def stateOp (st : MasterState) (newState : Option StrMap) :
    MasterState × List WorkerSnapshot :=
  let ws := st.workerMonitors.map (fun w =>
    match newState with
    | some ns => { w with data := objAssign w.data ns }
    | none => w)
  ({ st with workerMonitors := ws }, ws.map Worker.toJSON)

/-- The two inbound control-channel message kinds
(utils/SocketEventTypes). -/
inductive MsgKind where
  | request
  | publish
deriving DecidableEq

/-- An inbound control message `{method, args}`. -/
structure ChannelMsg where
  method : String
  args : List String

/-- Server-side observable outcome of handling one inbound message:
the reply sent back on the connection (if any), the unsupported-method
warning, and the handler-threw error log. -/
structure DispatchEffect (α : Type) where
  reply : Option (String × α) := none
  warnedUnsupported : Bool := false
  loggedError : Bool := false
deriving DecidableEq

/-- One data-event of `startServer` (SocketsHelpers.js:55-82): a falsy
message or one without `method` is ignored; when
`masterMonitor[method]` is a function it is invoked (`invoke` is its
result, `.error` when it throws) and the resolved result is sent back
with the method name on REQUEST only; otherwise a warning is logged and
nothing is sent; a throwing handler is logged and nothing is sent. -/
def handleMessage {α : Type} (event : MsgKind) (msg : Option ChannelMsg)
    (isFn : Bool) (invoke : Except String α) : DispatchEffect α :=
  match msg with
  | none => {}
  | some m =>
    if isFn then
      match invoke with
      | .ok resp =>
        { reply := if event = MsgKind.request then some (m.method, resp) else none }
      | .error _ => { loggedError := true }
    else { warnedUnsupported := true }

/-- Outcome classes of a client connection attempt (startClient,
SocketsHelpers.js:85-101): connected; failed with one of ECONNRESET,
ECONNREFUSED, ENOENT (a dead-listener probe, triggering socket-file
removal); or failed with some other error (logged only). -/
inductive Probe where
  | connected
  | refusedLike
  | otherError
deriving DecidableEq

/-- The run directory for socket files (workspace collaborator). -/
def runDirPath : String := "run/"

/-- getSocketPath (SocketsHelpers.js:45-49): `join(runDir, key) +
".sock"`. -/
def socketPathOf (key : String) : String := runDirPath ++ key ++ ".sock"

/-- A live-looking PID record (PidHelpers.getPids, a collaborator not
under src/, specified in spec 6 as a read-all keyed store). -/
structure PidRef where
  pid : Nat
  key : String
  pidFile : String
deriving DecidableEq

/-- A socket file found by globbing the run directory
(getSocketFiles, SocketsHelpers.js:14-32): its path and the key
`basename(path, ".sock")`. -/
structure SocketRef where
  socketPath : String
  key : String
deriving DecidableEq

/-- The remote state a live supervisor answers with on a STATE request
(the fields discovery reads). -/
structure RemoteState where
  pid : Nat
  pidFile : String
  name : String
  key : String
deriving DecidableEq

/-- A discovered remote orchestrator (spec 3: ConnectionRef). -/
structure ConnRef where
  key : String
  pid : Option Nat
  pidFile : Option String
  socketPath : String
deriving DecidableEq

/-- startClient (SocketsHelpers.js:85-101): whether a client socket was
obtained, plus the socket files removed (on ECONNRESET, ECONNREFUSED or
ENOENT the socket file is removed as garbage and nothing is returned;
other errors are logged and nothing is returned). -/
def startClientM (probe : String → Probe) (socketPath : String) :
    Bool × List String :=
  match probe socketPath with
  | Probe.connected => (true, [])
  | Probe.refusedLike => (false, [socketPath])
  | Probe.otherError => (false, [])

/-- The PID-record pass of getAll (part_000:41-52): derive the socket
path of each record key and try to connect; a live socket yields a
ConnectionRef, a failed attempt removes the socket file (both inside
startClient on the connection-refused class and unconditionally by the
else branch of getAll). -/
def pidProbe (probe : String → Probe) : List PidRef → List ConnRef × List String
  | [] => ([], [])
  | pr :: rest =>
    let acc := pidProbe probe rest
    let sp := socketPathOf pr.key
    match probe sp with
    | Probe.connected => (⟨pr.key, some pr.pid, some pr.pidFile, sp⟩ :: acc.1, acc.2)
    | Probe.refusedLike => (acc.1, sp :: sp :: acc.2)
    | Probe.otherError => (acc.1, sp :: acc.2)

/-- The zombie-socket pass of getAll (part_000:55-77) over the socket
files with no matching PID record: probe each; a live one that answers a
state fetch (`stateOf`) is folded into the result with the pid and
pidFile from its state; a connection-refused probe removed the file
inside startClient; a dead state fetch drops the candidate. -/
def zombieProbe (probe : String → Probe) (stateOf : String → Option RemoteState) :
    List SocketRef → List ConnRef × List String
  | [] => ([], [])
  | sr :: rest =>
    let acc := zombieProbe probe stateOf rest
    match probe sr.socketPath with
    | Probe.connected =>
      match stateOf sr.socketPath with
      | some rs => (⟨sr.key, some rs.pid, some rs.pidFile, sr.socketPath⟩ :: acc.1, acc.2)
      | none => acc
    | Probe.refusedLike => (acc.1, sr.socketPath :: acc.2)
    | Probe.otherError => acc

/-- getAll (part_000:36-79): the PID pass over every PID record, then —
skipped on Windows — the zombie pass over the socket files whose key
matches no PID record (`differenceWith` on keys).  Returns the
discovered ConnectionRefs and the socket files removed as garbage. -/
def getAllM (isWin : Bool) (probe : String → Probe)
    (stateOf : String → Option RemoteState) (pidRefs : List PidRef)
    (socketRefs : List SocketRef) : List ConnRef × List String :=
  let fromPids := pidProbe probe pidRefs
  let zomb :=
    if isWin then ([], [])
    else zombieProbe probe stateOf
      (socketRefs.filter (fun sr => !(pidRefs.any (fun pr => pr.key == sr.key))))
  (fromPids.1 ++ zomb.1, fromPids.2 ++ zomb.2)

/-- getByName (part_000:81-99): getAll, then keep the refs whose state
fetch answers with a matching name (non-matching and dead candidates are
closed and dropped). -/
def getByNameM (probe : String → Probe) (stateOf : String → Option RemoteState)
    (pidRefs : List PidRef) (socketRefs : List SocketRef) (name : String) :
    List ConnRef × List String :=
  let all := getAllM false probe stateOf pidRefs socketRefs
  (all.1.filter (fun r =>
    match stateOf r.socketPath with
    | some rs => rs.name == name
    | none => false), all.2)

/-- getByKey (part_000:101-119): getAll, then `res` is assigned the ref
whose state key matches — a single ConnectionRef, `none` when no
candidate matches (`let res;` stays undefined). -/
def getByKeyM (probe : String → Probe) (stateOf : String → Option RemoteState)
    (pidRefs : List PidRef) (socketRefs : List SocketRef) (key : String) :
    Option ConnRef :=
  ((getAllM false probe stateOf pidRefs socketRefs).1).foldl
    (fun acc r =>
      match stateOf r.socketPath with
      | some rs => if rs.key == key then some r else acc
      | none => acc)
    none

/-- A JS value as seen by a dynamic `.map` call site: undefined, a plain
object, or an array. -/
inductive JsVal (α : Type) where
  | undef
  | obj (r : α)
  | arr (rs : List α)

/-- The value of `getByKey` as a JS value: a single ref object or
undefined, never an array. -/
def getByKeyJs (probe : String → Probe) (stateOf : String → Option RemoteState)
    (pidRefs : List PidRef) (socketRefs : List SocketRef) (key : String) :
    JsVal ConnRef :=
  match getByKeyM probe stateOf pidRefs socketRefs key with
  | some r => JsVal.obj r
  | none => JsVal.undef

/-- A dynamic `refs.map(...)` call: succeeds on an array, throws a
TypeError on undefined (no property access) and on a non-array object
(`.map` is not a function). -/
def jsMapCall {α : Type} (v : JsVal α) : Except String (List α) :=
  match v with
  | JsVal.arr rs => Except.ok rs
  | _ => Except.error "TypeError"

/-- Instance.getInstanceByKey (part_000:128-132): `const refs = await
getByKey(key); return refs.map((ref) => new Instance(ref, options))`. -/
def getInstanceByKey (probe : String → Probe)
    (stateOf : String → Option RemoteState) (pidRefs : List PidRef)
    (socketRefs : List SocketRef) (key : String) : Except String (List ConnRef) :=
  jsMapCall (getByKeyJs probe stateOf pidRefs socketRefs key)

/-- Outcome of driving one worker until it settles: how many times its
child was spawned, the crash counter, and the final status. -/
structure CrashOutcome where
  spawns : Nat
  crashes : Nat
  status : WStatus
deriving DecidableEq

/-- Modelled from the spec: the WorkerMonitor crash/respawn state
machine (WorkerMonitor.js is not under src/), driven by a child that
always exits immediately after launch.  Per spec 4.2 and the observed
contract (also the repository test "should crashes work"): each
unexpected exit increments `crashes`; while the respawn budget is not
exhausted the worker respawns, and once it is the worker settles in
`sleeping` with no further respawn — `maxRestarts = 1` allows exactly
one respawn, so the run is spawn, crash #1, respawn, crash #2, settle.
The fuel argument bounds the recursion at the budget. -/
def crashLoopGo (maxRestarts : Nat) : Nat → Nat → Nat → CrashOutcome
  | 0, spawns, crashes => ⟨spawns, crashes, WStatus.sleeping⟩
  | fuel + 1, spawns, crashes =>
    let spawns := spawns + 1
    let crashes := crashes + 1
    if crashes ≤ maxRestarts then crashLoopGo maxRestarts fuel spawns crashes
    else ⟨spawns, crashes, WStatus.sleeping⟩

/-- Run the always-crashing worker from a fresh start with the given
`maxRestarts`. -/
def runCrashLoop (maxRestarts : Nat) : CrashOutcome :=
  crashLoopGo maxRestarts (maxRestarts + 1) 0 0

/-- Modelled from the spec: explicit `stop()` (spec 4.1) terminates the
process and prevents further respawn; the crash counter is not
touched. -/
def stopW (cs : CrashState) : CrashState :=
  { cs with status := WStatus.stopped }

/-- Modelled from the spec: explicit `restart()` (spec 4.1) stops the
current process and starts a new one, resetting the crash counter only
when the new process survives past the minimum-uptime threshold — it
never increments it. -/
def restartW (cs : CrashState) (survivedMinUptime : Bool) : CrashState :=
  { status := WStatus.running,
    crashes := if survivedMinUptime then 0 else cs.crashes }

/-- The one-key object literal `{k: v}` passed to `setState`. -/
def singletonMap (k v : String) : StrMap :=
  fun q => if q = k then some v else none

/-- Concrete snapshot used by closed statements. -/
def snap0 : WorkerSnapshot :=
  ⟨fun _ => none, ⟨WStatus.running, 0⟩, some 1⟩

/-- Two requested workers, the second one failing its bootstrap: the
concrete spawn settlement that separates the code from the claimed `ok`
formula. -/
def cexBootstraps : List (WorkerSnapshot × Option String) :=
  [(snap0, none), (snap0, some "bootstrap failed")]

/-- Concrete discovery scenario: one orchestrator with key "alpha",
present both as a PID record and as a socket file. -/
def pid0 : PidRef := ⟨10, "alpha", "alpha.pid"⟩

/-- The socket file of the "alpha" orchestrator. -/
def sock0 : SocketRef := ⟨socketPathOf "alpha", "alpha"⟩

/-- The state the live "alpha" orchestrator answers with. -/
def rs0 : RemoteState := ⟨10, "alpha.pid", "hello", "alpha"⟩

/-- A probe under which exactly the "alpha" socket has a live
listener. -/
def probe0 : String → Probe :=
  fun sp => if sp = socketPathOf "alpha" then Probe.connected else Probe.refusedLike

/-- The state fetch answering only on the "alpha" socket. -/
def stateOf0 : String → Option RemoteState :=
  fun sp => if sp = socketPathOf "alpha" then some rs0 else none

/-- A one-worker orchestrator state used by closed statements. -/
def stW : MasterState :=
  { workerMonitors := [⟨1, fun _ => none, ⟨WStatus.running, 0⟩, some 41⟩],
    socketOpen := true }

-- ## Theorems

theorem length_filterMap_snd (l : List (WorkerSnapshot × Option String)) :
    (l.filterMap (fun b => b.2)).length = l.countP (fun b => b.2.isSome) := by
  induction l with
  | nil => rfl
  | cons b t ih =>
    cases h : b.2 <;>
      simp [List.filterMap_cons, List.countP_cons, h, ih]

theorem countP_none_add_some (l : List (WorkerSnapshot × Option String)) :
    l.countP (fun b => b.2.isNone) + l.countP (fun b => b.2.isSome) = l.length := by
  induction l with
  | nil => rfl
  | cons b t ih =>
    cases h : b.2 <;>
      simp [List.countP_cons, h] <;> omega

/-- C1 counterexample: with two requested workers of which exactly one
bootstrap errors, the code returns `ok = true` (`bootstraps.length >
errors.length`, i.e. 2 > 1), while the claimed formula `successCount >
errorCount` is `1 > 1`, which is false. -/
theorem spawn_ok_counterexample :
    (spawnSettle cexBootstraps).ok = true ∧
    ¬(cexBootstraps.countP (fun b => b.2.isNone) >
        cexBootstraps.countP (fun b => b.2.isSome)) := by
  constructor
  · rfl
  · decide

/-- C1 (amended): `spawn` settles only once every requested worker has
resolved, `added` has one entry per requested worker, `errors` collects
exactly the failed bootstraps, and `ok` is true iff the requested count
exceeds the error count — equivalently, iff at least one bootstrap
succeeded (each bootstrap contributes either a success or one error). -/
theorem spawn_settlement :
    ∀ bootstraps : List (WorkerSnapshot × Option String),
      (spawnSettle bootstraps).added.length = bootstraps.length ∧
      (spawnSettle bootstraps).errors.length = bootstraps.countP (fun b => b.2.isSome) ∧
      ((spawnSettle bootstraps).ok = true ↔
        (spawnSettle bootstraps).errors.length < bootstraps.length) ∧
      ((spawnSettle bootstraps).ok = true ↔
        0 < bootstraps.countP (fun b => b.2.isNone)) := by
  intro bootstraps
  have hlen := length_filterMap_snd bootstraps
  have hadd := countP_none_add_some bootstraps
  refine ⟨by simp [spawnSettle], by simp [spawnSettle, hlen], ?_, ?_⟩
  · simp [spawnSettle]
  · simp only [spawnSettle, decide_eq_true_eq]
    omega

theorem foldl_max_init_le (l : List Nat) : ∀ acc, acc ≤ l.foldl max acc := by
  induction l with
  | nil => intro acc; exact Nat.le_refl acc
  | cons a t ih =>
    intro acc
    exact le_trans (Nat.le_max_left acc a) (ih (max acc a))

theorem mem_le_foldl_max (l : List Nat) (x : Nat) :
    x ∈ l → ∀ acc, x ≤ l.foldl max acc := by
  induction l with
  | nil => intro h; cases h
  | cons a t ih =>
    intro hx acc
    rcases List.mem_cons.mp hx with rfl | hmem
    · exact le_trans (Nat.le_max_right acc x) (foldl_max_init_le t (max acc x))
    · exact ih hmem (max acc a)

theorem allocNum_gt (existing : List Nat) :
    ∀ x ∈ existing, x < allocNum existing := by
  intro x hx
  cases existing with
  | nil => cases hx
  | cons a t =>
    have hfold := mem_le_foldl_max (a :: t) x hx 0
    unfold allocNum
    rw [if_neg (by simp)]
    omega

theorem allocNum_not_mem (existing : List Nat) : allocNum existing ∉ existing := by
  intro hmem
  exact absurd rfl (Nat.ne_of_lt (allocNum_gt existing _ hmem))

theorem foldl_max_range_one (k : Nat) : (List.range' 1 k).foldl max 0 = k := by
  induction k with
  | zero => rfl
  | succ k ih =>
    rw [List.range'_1_concat, List.foldl_append, ih]
    simp
    omega

theorem allocNum_range_one (k : Nat) : allocNum (List.range' 1 k) = k + 1 := by
  cases k with
  | zero => rfl
  | succ k =>
    unfold allocNum
    rw [if_neg (by simp [List.range'_succ]), foldl_max_range_one]

theorem startInsert_range_one (k : Nat) :
    startInsert (List.range' 1 k) = List.range' 1 (k + 1) := by
  unfold startInsert
  rw [allocNum_range_one]
  have hcat : List.range' 1 k ++ [k + 1] = List.range' 1 (k + 1) := by
    rw [List.range'_1_concat]
    simp [Nat.add_comm]
  rw [hcat]
  have hsorted : List.Sorted (· ≤ ·) (List.range' 1 (k + 1)) :=
    (List.pairwise_lt_range' 1 (k + 1)).imp le_of_lt
  exact hsorted.insertionSort_eq

theorem startBatch_range_one (N : Nat) :
    ∀ k, startBatch N (List.range' 1 k) = List.range' 1 (k + N) := by
  induction N with
  | zero => intro k; rfl
  | succ n ih =>
    intro k
    show startBatch n (startInsert (List.range' 1 k)) = _
    rw [startInsert_range_one, ih (k + 1)]
    congr 1
    omega

/-- C4: a spawn batch of N workers on a fresh orchestrator assigns the
instance numbers 1..N in order: the resulting sibling list is exactly
`[1, ..., N]`, hence the numbers are distinct and their set is
`{1, ..., N}`; moreover every allocation `max(existing) + 1` exceeds all
live sibling numbers, so a number is never reused while a sibling holds
it. -/
theorem spawn_instance_numbers (N : Nat) (h : 1 ≤ N) :
    startBatch N [] = List.range' 1 N ∧
    (startBatch N []).Nodup ∧
    (∀ k, k ∈ startBatch N [] ↔ 1 ≤ k ∧ k ≤ N) ∧
    (∀ existing : List Nat,
      (∀ x ∈ existing, x < allocNum existing) ∧ allocNum existing ∉ existing) := by
  have heq : startBatch N [] = List.range' 1 N := by
    have := startBatch_range_one N 0
    simpa using this
  refine ⟨heq, ?_, ?_, ?_⟩
  · rw [heq]; exact List.nodup_range' 1 N
  · intro k
    rw [heq, List.mem_range'_1]
    omega
  · intro existing
    exact ⟨allocNum_gt existing, allocNum_not_mem existing⟩

/-- C4 witness: the property at N = 3. -/
theorem spawn_instance_numbers_witness :
    startBatch 3 [] = List.range' 1 3 ∧
    (startBatch 3 []).Nodup ∧
    (∀ k, k ∈ startBatch 3 [] ↔ 1 ≤ k ∧ k ≤ 3) ∧
    (∀ existing : List Nat,
      (∀ x ∈ existing, x < allocNum existing) ∧ allocNum existing ∉ existing) :=
  spawn_instance_numbers 3 (by decide)

/-- C2: `shutDown` exits the host process only when its removal has left
`workerMonitors` empty, and whenever an invocation that started with a
non-empty list leaves it empty, the control-socket file is removed, the
server is closed when it was bound, and the process exits with code 0. -/
theorem shutdown_exit_invariant :
    ∀ (stopFail : Nat → Option String) (st : MasterState) (n : Nat),
      ((shutDownOne stopFail st n).2.exited ≠ none →
        (shutDownOne stopFail st n).1.workerMonitors = [] ∧
        (shutDownOne stopFail st n).2.exited = some 0 ∧
        (shutDownOne stopFail st n).2.removedSocketFile = true ∧
        (shutDownOne stopFail st n).2.serverClosed = st.socketOpen) ∧
      (st.workerMonitors ≠ [] →
        (shutDownOne stopFail st n).1.workerMonitors = [] →
        (shutDownOne stopFail st n).2.exited = some 0 ∧
        (shutDownOne stopFail st n).2.removedSocketFile = true ∧
        (shutDownOne stopFail st n).2.serverClosed = st.socketOpen) := by
  intro stopFail st n
  cases hf : st.workerMonitors.find? (fun w => w.instanceNum == n) with
  | none =>
    constructor
    · intro hex
      exact absurd (by simp [shutDownOne, hf]) hex
    · intro hne hempty
      refine absurd ?_ hne
      simpa [shutDownOne, hf] using hempty
  | some w =>
    cases hsf : stopFail w.instanceNum with
    | some e =>
      constructor
      · intro hex
        exact absurd (by simp [shutDownOne, hf, hsf]) hex
      · intro hne hempty
        refine absurd ?_ hne
        simpa [shutDownOne, hf, hsf] using hempty
    | none =>
      by_cases hemp :
          (st.workerMonitors.eraseP (fun x => x.instanceNum == n)).isEmpty = true
      · have hnil : st.workerMonitors.eraseP (fun x => x.instanceNum == n) = [] :=
          List.isEmpty_iff.mp hemp
        constructor
        · intro _
          refine ⟨?_, ?_, ?_, ?_⟩ <;> simp [shutDownOne, hf, hsf, hemp, hnil]
        · intro _ _
          refine ⟨?_, ?_, ?_⟩ <;> simp [shutDownOne, hf, hsf, hemp, hnil]
      · constructor
        · intro hex
          exact absurd (by simp [shutDownOne, hf, hsf, hemp]) hex
        · intro hne hempty
          refine absurd (List.isEmpty_iff.mpr ?_) hemp
          simpa [shutDownOne, hf, hsf, hemp] using hempty

theorem eraseP_num_not_mem (l : List Worker) (n : Nat) :
    (l.map (fun w => w.instanceNum)).Nodup →
    ∀ x ∈ l.eraseP (fun w => w.instanceNum == n), x.instanceNum ≠ n := by
  induction l with
  | nil => intro _ x hx; cases hx
  | cons a t ih =>
    intro hnd x hx
    rw [List.map_cons, List.nodup_cons] at hnd
    rw [List.eraseP_cons] at hx
    cases hpa : a.instanceNum == n with
    | true =>
      rw [hpa] at hx
      simp only [cond_true] at hx
      intro hxn
      apply hnd.1
      have : a.instanceNum = n := by simpa using hpa
      rw [this, ← hxn]
      exact List.mem_map_of_mem (fun w => w.instanceNum) hx
    | false =>
      rw [hpa] at hx
      simp only [cond_false] at hx
      rcases List.mem_cons.mp hx with rfl | hmem
      · simpa using hpa
      · exact ih hnd.2 x hmem

/-- C6: shutting down an instance number with no matching worker — a
never-assigned number, or one whose worker was already removed by an
earlier successful `shutDown` of the same number — logs a warning and
returns without error, leaving the orchestrator state unchanged. -/
theorem shutdown_missing_noop :
    ∀ (stopFail : Nat → Option String) (st : MasterState) (n : Nat),
      ((∀ w ∈ st.workerMonitors, w.instanceNum ≠ n) →
        shutDownOne stopFail st n = (st, { warned := true })) ∧
      (st.nums.Nodup → stopFail n = none →
        shutDownOne stopFail (shutDownOne stopFail st n).1 n =
          ((shutDownOne stopFail st n).1, { warned := true })) := by
  intro stopFail st n
  have habsent : ∀ (s : MasterState), (∀ w ∈ s.workerMonitors, w.instanceNum ≠ n) →
      shutDownOne stopFail s n = (s, { warned := true }) := by
    intro s hs
    unfold shutDownOne
    have hf : s.workerMonitors.find? (fun w => w.instanceNum == n) = none := by
      rw [List.find?_eq_none]
      intro w hw
      simpa using hs w hw
    rw [hf]
  refine ⟨habsent st, fun hnd hsf => ?_⟩
  cases hf : st.workerMonitors.find? (fun w => w.instanceNum == n) with
  | none =>
    have hnone : ∀ w ∈ st.workerMonitors, w.instanceNum ≠ n := by
      intro w hw
      simpa using List.find?_eq_none.mp hf w hw
    have h1 := habsent st hnone
    rw [h1]
    exact habsent st hnone
  | some w =>
    have hwn : w.instanceNum = n := by
      simpa using List.find?_some hf
    have hsfw : stopFail w.instanceNum = none := by rw [hwn]; exact hsf
    have hworkers : ((shutDownOne stopFail st n).1).workerMonitors =
        st.workerMonitors.eraseP (fun x => x.instanceNum == n) := by
      by_cases hemp :
          (st.workerMonitors.eraseP (fun x => x.instanceNum == n)).isEmpty = true <;>
        simp [shutDownOne, hf, hsfw, hemp]
    apply habsent
    rw [hworkers]
    exact eraseP_num_not_mem st.workerMonitors n hnd

/-- C7: control-channel dispatch — an unsupported method logs a warning
and sends no reply; a throwing handler is logged and sends no reply; a
resolving handler is replied to, with the method name and its result, on
REQUEST; on PUBLISH no reply is ever sent, whatever the dispatch did. -/
theorem control_dispatch :
    ∀ (α : Type) (event : MsgKind) (m : ChannelMsg) (invoke : Except String α),
      (handleMessage event (some m) false invoke =
        { warnedUnsupported := true }) ∧
      (∀ e, invoke = Except.error e →
        handleMessage event (some m) true invoke = { loggedError := true }) ∧
      (∀ r, invoke = Except.ok r →
        handleMessage MsgKind.request (some m) true invoke =
          { reply := some (m.method, r) }) ∧
      (∀ isFn, (handleMessage MsgKind.publish (some m) isFn invoke).reply = none) := by
  intro α event m invoke
  refine ⟨rfl, fun e he => ?_, fun r hr => ?_, fun isFn => ?_⟩
  · rw [he]; rfl
  · rw [hr]; rfl
  · cases isFn with
    | false => rfl
    | true =>
      cases invoke with
      | ok r => rfl
      | error e => rfl

/-- C10: `Instance.getInstanceByKey` can never return instances — the
underlying `getByKey` resolves to a single ConnectionRef or to
undefined, never to an array, and calling `.map` on that value throws a
TypeError for every input. -/
theorem getInstanceByKey_type_error :
    ∀ (probe : String → Probe) (stateOf : String → Option RemoteState)
      (pidRefs : List PidRef) (socketRefs : List SocketRef) (key : String),
      getInstanceByKey probe stateOf pidRefs socketRefs key =
        Except.error "TypeError" := by
  intro probe stateOf pidRefs socketRefs key
  unfold getInstanceByKey getByKeyJs
  cases getByKeyM probe stateOf pidRefs socketRefs key with
  | none => rfl
  | some r => rfl

/-- C3: a worker with `maxRestarts = 1` whose child always exits
immediately is started, crashes (#1), is respawned exactly once, crashes
again (#2), and settles sleeping with `crashes = 2` and exactly 2 spawns
— never a third respawn; explicit `stop()` and `restart()` never
increment the crash counter. -/
theorem crash_loop_budget :
    runCrashLoop 1 = ⟨2, 2, WStatus.sleeping⟩ ∧
    (runCrashLoop 1).crashes = 2 ∧
    (runCrashLoop 1).spawns = 2 ∧
    (runCrashLoop 1).status ≠ WStatus.running ∧
    (∀ cs : CrashState, (stopW cs).crashes = cs.crashes) ∧
    (∀ (cs : CrashState) (survived : Bool),
      (restartW cs survived).crashes ≤ cs.crashes) := by
  refine ⟨by decide, by decide, by decide, by decide, fun cs => rfl, ?_⟩
  intro cs survived
  cases survived with
  | false => exact Nat.le_refl _
  | true => exact Nat.zero_le _

/-- C9: merging `{k: v}` into the worker state and then fetching the
state yields snapshots in which `k` is `v`; a key never set — absent
initially and different from `k` — stays absent in the fetched
snapshots. -/
theorem state_roundtrip (st : MasterState) (k v : String)
    (hne : st.workerMonitors ≠ []) :
    ((stateOp (stateOp st (some (singletonMap k v))).1 none).2 ≠ [] ∧
      ∀ s ∈ (stateOp (stateOp st (some (singletonMap k v))).1 none).2,
        s.data k = some v) ∧
    (∀ q, (∀ w ∈ st.workerMonitors, w.data q = none) → q ≠ k →
      ∀ s ∈ (stateOp (stateOp st (some (singletonMap k v))).1 none).2,
        s.data q = none) := by
  constructor
  · constructor
    · simp [stateOp, Worker.toJSON]
      intro habs
      exact hne habs
    · intro s hs
      simp only [stateOp, List.map_map, List.mem_map] at hs
      obtain ⟨w, hw, rfl⟩ := hs
      simp [Worker.toJSON, objAssign, singletonMap]
  · intro q hq hqk s hs
    simp only [stateOp, List.map_map, List.mem_map] at hs
    obtain ⟨w, hw, rfl⟩ := hs
    simp [Worker.toJSON, objAssign, singletonMap, hqk, hq w hw]

theorem shutDownOne_stop_error (stopFail : Nat → Option String)
    (st : MasterState) (n : Nat) (w : Worker) (e : String)
    (hf : st.workerMonitors.find? (fun w => w.instanceNum == n) = some w)
    (he : stopFail w.instanceNum = some e) :
    shutDownOne stopFail st n = (st, { error := some e }) := by
  simp [shutDownOne, hf, he]

theorem shutDownOne_removes (stopFail : Nat → Option String)
    (st : MasterState) (n : Nat) (w : Worker)
    (hf : st.workerMonitors.find? (fun w => w.instanceNum == n) = some w)
    (hsf : stopFail w.instanceNum = none) :
    ((shutDownOne stopFail st n).1).workerMonitors =
      st.workerMonitors.eraseP (fun x => x.instanceNum == n) ∧
    (shutDownOne stopFail st n).2.error = none := by
  by_cases hemp :
      (st.workerMonitors.eraseP (fun x => x.instanceNum == n)).isEmpty = true <;>
    constructor <;> simp [shutDownOne, hf, hsf, hemp]

theorem map_eraseP_num (l : List Worker) (n : Nat) :
    (l.eraseP (fun w => w.instanceNum == n)).map (fun w => w.instanceNum) =
      (l.map (fun w => w.instanceNum)).erase n := by
  induction l with
  | nil => rfl
  | cons a t ih =>
    cases hpa : a.instanceNum == n with
    | true => simp [List.eraseP_cons, List.erase_cons, hpa]
    | false => simp [List.eraseP_cons, List.erase_cons, hpa, ih]

theorem scale_down_fold (stopFail : Nat → Option String) :
    ∀ (rs : List Worker) (s : MasterState) (es : List String),
      s.nums.Nodup →
      (∀ r ∈ rs, r.instanceNum ∈ s.nums) →
      ((rs.map (fun w => w.instanceNum)).Nodup) →
      (rs.foldl (scaleShutStep stopFail) (s, es)).2 =
          es ++ rs.filterMap (fun r => stopFail r.instanceNum) ∧
        ((rs.foldl (scaleShutStep stopFail) (s, es)).1).nums.Nodup ∧
        (∀ m, m ∈ ((rs.foldl (scaleShutStep stopFail) (s, es)).1).nums ↔
          m ∈ s.nums ∧ ¬ ∃ r ∈ rs, r.instanceNum = m ∧ stopFail m = none) := by
  intro rs
  induction rs with
  | nil =>
    intro s es hnodup _ _
    refine ⟨by simp, hnodup, fun m => ?_⟩
    simp
  | cons r rs ih =>
    intro s es hnodup hmem hnd
    rw [List.map_cons, List.nodup_cons] at hnd
    have hrs : r.instanceNum ∈ s.nums := hmem r (List.mem_cons_self r rs)
    obtain ⟨w0, hw0, hw0n⟩ := List.mem_map.mp hrs
    cases hf : s.workerMonitors.find? (fun w => w.instanceNum == r.instanceNum) with
    | none =>
      exact absurd (by simpa using List.find?_eq_none.mp hf w0 hw0) (by simp [hw0n])
    | some w1 =>
      have hw1n : w1.instanceNum = r.instanceNum := by
        simpa using List.find?_some hf
      cases hsf : stopFail r.instanceNum with
      | some e =>
        have hone : shutDownOne stopFail s r.instanceNum = (s, { error := some e }) :=
          shutDownOne_stop_error stopFail s r.instanceNum w1 e hf (by rw [hw1n]; exact hsf)
        have hstep : scaleShutStep stopFail (s, es) r = (s, es ++ [e]) := by
          simp [scaleShutStep, hone]
        rw [List.foldl_cons, hstep]
        obtain ⟨ih1, ih2, ih3⟩ := ih s (es ++ [e]) hnodup
          (fun x hx => hmem x (List.mem_cons_of_mem r hx)) hnd.2
        refine ⟨?_, ih2, fun m => ?_⟩
        · rw [ih1, List.filterMap_cons, hsf, List.append_assoc]
          rfl
        · rw [ih3 m]
          constructor
          · rintro ⟨hmem1, hnrs⟩
            refine ⟨hmem1, ?_⟩
            rintro ⟨x, hx, hxm, hxn⟩
            rcases List.mem_cons.mp hx with rfl | hxrs
            · rw [← hxm, hsf] at hxn
              cases hxn
            · exact hnrs ⟨x, hxrs, hxm, hxn⟩
          · rintro ⟨hmem1, hncons⟩
            exact ⟨hmem1, fun ⟨x, hx, hxp⟩ =>
              hncons ⟨x, List.mem_cons_of_mem r hx, hxp⟩⟩
      | none =>
        obtain ⟨hwrk, herr⟩ := shutDownOne_removes stopFail s r.instanceNum w1 hf
          (by rw [hw1n]; exact hsf)
        have hstep : scaleShutStep stopFail (s, es) r =
            ((shutDownOne stopFail s r.instanceNum).1, es) := by
          simp [scaleShutStep, herr]
        have hnums1 : ((shutDownOne stopFail s r.instanceNum).1).nums =
            s.nums.erase r.instanceNum := by
          show ((shutDownOne stopFail s r.instanceNum).1).workerMonitors.map _ = _
          rw [hwrk, map_eraseP_num]
          rfl
        rw [List.foldl_cons, hstep]
        have hmem1 : ∀ x ∈ rs, x.instanceNum ∈
            ((shutDownOne stopFail s r.instanceNum).1).nums := by
          intro x hx
          rw [hnums1, List.Nodup.mem_erase_iff hnodup]
          refine ⟨?_, hmem x (List.mem_cons_of_mem r hx)⟩
          intro hxe
          exact hnd.1 (hxe ▸ List.mem_map_of_mem (fun w => w.instanceNum) hx)
        have hnodup1 : ((shutDownOne stopFail s r.instanceNum).1).nums.Nodup := by
          rw [hnums1]
          exact List.Nodup.erase r.instanceNum hnodup
        obtain ⟨ih1, ih2, ih3⟩ :=
          ih ((shutDownOne stopFail s r.instanceNum).1) es hnodup1 hmem1 hnd.2
        refine ⟨?_, ih2, fun m => ?_⟩
        · rw [ih1, List.filterMap_cons, hsf]
        · rw [ih3 m, hnums1, List.Nodup.mem_erase_iff hnodup]
          constructor
          · rintro ⟨⟨hne, hmem2⟩, hnrs⟩
            refine ⟨hmem2, ?_⟩
            rintro ⟨x, hx, hxm, hxn⟩
            rcases List.mem_cons.mp hx with rfl | hxrs
            · exact hne hxm.symm
            · exact hnrs ⟨x, hxrs, hxm, hxn⟩
          · rintro ⟨hmem2, hncons⟩
            refine ⟨⟨?_, hmem2⟩, ?_⟩
            · intro heq
              exact hncons ⟨r, List.mem_cons_self r rs, heq.symm, heq ▸ hsf⟩
            · rintro ⟨x, hx, hxp⟩
              exact hncons ⟨x, List.mem_cons_of_mem r hx, hxp⟩

/-- C5: scale at the current count is a pure no-op success; scale above
it delegates to `spawn(target - current)`; scale below it selects
exactly the `current - target` workers with the highest instance numbers
(the tail of the instanceNum-sorted list), snapshots them all into
`removed`, collects every per-worker stop rejection into `errors`
without aborting the other removals, and removes from `workerMonitors`
precisely the selected workers whose stop did not reject. -/
theorem scale_behavior :
    ∀ (stopFail : Nat → Option String) (st : MasterState) (target : Nat),
      (target = st.workerMonitors.length →
        scaleModel stopFail st target = (st, {})) ∧
      (st.workerMonitors.length < target →
        scaleModel stopFail st target =
          (st, { delegatedSpawn := some (target - st.workerMonitors.length) })) ∧
      (target < st.workerMonitors.length →
        List.Pairwise (fun a b => a.instanceNum < b.instanceNum) st.workerMonitors →
        (scaleModel stopFail st target).2.removed =
            (st.workerMonitors.drop target).map Worker.toJSON ∧
          (scaleModel stopFail st target).2.removed.length =
            st.workerMonitors.length - target ∧
          (∀ w ∈ st.workerMonitors.take target,
            ∀ r ∈ st.workerMonitors.drop target, w.instanceNum < r.instanceNum) ∧
          (scaleModel stopFail st target).2.errors =
            (st.workerMonitors.drop target).filterMap
              (fun r => stopFail r.instanceNum) ∧
          (∀ m, m ∈ (scaleModel stopFail st target).1.nums ↔
            m ∈ st.nums ∧
              ¬ ∃ r ∈ st.workerMonitors.drop target,
                  r.instanceNum = m ∧ stopFail m = none)) := by
  intro stopFail st target
  refine ⟨fun h => ?_, fun h => ?_, fun h hp => ?_⟩
  · unfold scaleModel
    rw [if_pos (by omega)]
  · unfold scaleModel
    rw [if_neg (by omega), if_pos (by omega)]
  · have hm : scaleModel stopFail st target =
        (((st.workerMonitors.drop target).foldl (scaleShutStep stopFail) (st, [])).1,
         { ok := ((st.workerMonitors.drop target).foldl
              (scaleShutStep stopFail) (st, [])).2.isEmpty,
           errors := ((st.workerMonitors.drop target).foldl
              (scaleShutStep stopFail) (st, [])).2,
           removed := (st.workerMonitors.drop target).map Worker.toJSON }) := by
      unfold scaleModel
      rw [if_neg (by omega), if_neg (by omega)]
    have hnodup : st.nums.Nodup := by
      have hlt : List.Pairwise (· < ·) st.nums := List.pairwise_map.mpr hp
      exact hlt.imp Nat.ne_of_lt
    have hmem : ∀ r ∈ st.workerMonitors.drop target, r.instanceNum ∈ st.nums :=
      fun r hr => List.mem_map_of_mem (fun w => w.instanceNum)
        (List.mem_of_mem_drop hr)
    have hndrop : ((st.workerMonitors.drop target).map
        (fun w => w.instanceNum)).Nodup := by
      rw [List.map_drop]
      exact (List.drop_sublist target st.nums).nodup hnodup
    obtain ⟨h2, h3, h4⟩ := scale_down_fold stopFail
      (st.workerMonitors.drop target) st [] hnodup hmem hndrop
    refine ⟨by rw [hm], by rw [hm]; simp, ?_, by rw [hm]; simpa using h2, ?_⟩
    · have hsplit := List.pairwise_append.mp
        (show List.Pairwise (fun a b => a.instanceNum < b.instanceNum)
            (st.workerMonitors.take target ++ st.workerMonitors.drop target) by
          rw [List.take_append_drop]; exact hp)
      exact hsplit.2.2
    · intro m
      rw [hm]
      simpa using h4 m

theorem pidProbe_count_zero (probe : String → Probe) (k : String) :
    ∀ prs : List PidRef, (∀ pr ∈ prs, pr.key ≠ k) →
      ((pidProbe probe prs).1.countP (fun r => r.key == k)) = 0 := by
  intro prs
  induction prs with
  | nil => intro _; rfl
  | cons pr rest ih =>
    intro h
    have hk : (pr.key == k) = false := by
      simpa using h pr (List.mem_cons_self pr rest)
    have htail := ih (fun x hx => h x (List.mem_cons_of_mem pr hx))
    cases hpb : probe (socketPathOf pr.key) <;>
      simp [pidProbe, hpb, List.countP_cons, hk, htail]

theorem pidProbe_count_one (probe : String → Probe) (k : String) :
    ∀ prs : List PidRef, (prs.map (fun pr => pr.key)).Nodup →
      (∃ pr ∈ prs, pr.key = k) →
      probe (socketPathOf k) = Probe.connected →
      ((pidProbe probe prs).1.countP (fun r => r.key == k)) = 1 := by
  intro prs
  induction prs with
  | nil =>
    rintro _ ⟨pr, hpr, _⟩ _
    cases hpr
  | cons pr rest ih =>
    rintro hnd ⟨x, hx, hxk⟩ hcon
    rw [List.map_cons, List.nodup_cons] at hnd
    rcases List.mem_cons.mp hx with rfl | hxrest
    · have hzero := pidProbe_count_zero probe k rest
        (fun y hy hyk => hnd.1 (by
          rw [hxk, ← hyk]
          exact List.mem_map_of_mem (fun pr => pr.key) hy))
      simp only [pidProbe]
      rw [hxk, hcon]
      simp [List.countP_cons, hzero]
    · have hne : pr.key ≠ k := by
        intro heq
        exact hnd.1 (heq ▸ hxk ▸ List.mem_map_of_mem (fun pr => pr.key) hxrest)
      have htail := ih hnd.2 ⟨x, hxrest, hxk⟩ hcon
      have hk : (pr.key == k) = false := by simpa using hne
      cases hpb : probe (socketPathOf pr.key) <;>
        simp [pidProbe, hpb, List.countP_cons, hk, htail]

theorem zombieProbe_count_zero (probe : String → Probe)
    (stateOf : String → Option RemoteState) (k : String) :
    ∀ srs : List SocketRef, (∀ sr ∈ srs, sr.key ≠ k) →
      ((zombieProbe probe stateOf srs).1.countP (fun r => r.key == k)) = 0 := by
  intro srs
  induction srs with
  | nil => intro _; rfl
  | cons sr rest ih =>
    intro h
    have hk : (sr.key == k) = false := by
      simpa using h sr (List.mem_cons_self sr rest)
    have htail := ih (fun x hx => h x (List.mem_cons_of_mem sr hx))
    cases hpb : probe sr.socketPath with
    | connected =>
      cases hst : stateOf sr.socketPath <;>
        simp [zombieProbe, hpb, hst, List.countP_cons, hk, htail]
    | refusedLike => simp [zombieProbe, hpb, htail]
    | otherError => simp [zombieProbe, hpb, htail]

theorem zombieProbe_count_one (probe : String → Probe)
    (stateOf : String → Option RemoteState) (k : String) :
    ∀ srs : List SocketRef, (srs.map (fun sr => sr.key)).Nodup →
      (∃ sr ∈ srs, sr.key = k ∧ probe sr.socketPath = Probe.connected ∧
        (stateOf sr.socketPath).isSome = true) →
      ((zombieProbe probe stateOf srs).1.countP (fun r => r.key == k)) = 1 := by
  intro srs
  induction srs with
  | nil =>
    rintro _ ⟨sr, hsr, _⟩
    cases hsr
  | cons sr rest ih =>
    rintro hnd ⟨x, hx, hxk, hxc, hxs⟩
    rw [List.map_cons, List.nodup_cons] at hnd
    rcases List.mem_cons.mp hx with rfl | hxrest
    · have hzero := zombieProbe_count_zero probe stateOf k rest
        (fun y hy hyk => hnd.1 (by
          rw [hxk, ← hyk]
          exact List.mem_map_of_mem (fun sr => sr.key) hy))
      cases hst : stateOf x.socketPath with
      | none => rw [hst] at hxs; cases hxs
      | some rs =>
        simp only [zombieProbe]
        rw [hxc, hst]
        simp [List.countP_cons, hxk, hzero]
    · have hne : sr.key ≠ k := by
        intro heq
        exact hnd.1 (heq ▸ hxk ▸ List.mem_map_of_mem (fun sr => sr.key) hxrest)
      have htail := ih hnd.2 ⟨x, hxrest, hxk, hxc, hxs⟩
      have hk : (sr.key == k) = false := by simpa using hne
      cases hpb : probe sr.socketPath with
      | connected =>
        cases hst : stateOf sr.socketPath <;>
          simp [zombieProbe, hpb, hst, List.countP_cons, hk, htail]
      | refusedLike => simp [zombieProbe, hpb, htail]
      | otherError => simp [zombieProbe, hpb, htail]

theorem pidProbe_removed (probe : String → Probe) :
    ∀ prs : List PidRef, ∀ pr ∈ prs,
      probe (socketPathOf pr.key) ≠ Probe.connected →
      socketPathOf pr.key ∈ (pidProbe probe prs).2 := by
  intro prs
  induction prs with
  | nil => intro pr hpr; cases hpr
  | cons p rest ih =>
    intro pr hpr hnc
    rcases List.mem_cons.mp hpr with rfl | hmem
    · cases hpb : probe (socketPathOf pr.key) with
      | connected => exact absurd hpb hnc
      | refusedLike => simp [pidProbe, hpb]
      | otherError => simp [pidProbe, hpb]
    · have htail := ih pr hmem hnc
      cases hpb : probe (socketPathOf p.key) <;>
        simp [pidProbe, hpb, htail]

theorem zombieProbe_removed (probe : String → Probe)
    (stateOf : String → Option RemoteState) :
    ∀ srs : List SocketRef, ∀ sr ∈ srs,
      probe sr.socketPath = Probe.refusedLike →
      sr.socketPath ∈ (zombieProbe probe stateOf srs).2 := by
  intro srs
  induction srs with
  | nil => intro sr hsr; cases hsr
  | cons s rest ih =>
    intro sr hsr hrl
    rcases List.mem_cons.mp hsr with rfl | hmem
    · simp [zombieProbe, hrl]
    · have htail := ih sr hmem hrl
      cases hpb : probe s.socketPath with
      | connected =>
        cases hst : stateOf s.socketPath <;>
          simp [zombieProbe, hpb, hst, htail]
      | refusedLike => simp [zombieProbe, hpb, htail]
      | otherError => simp [zombieProbe, hpb, htail]

/-- C8: discovery reconciliation — a live orchestrator with key `k`,
reachable through its PID record, through its socket file, or through
both, lands in the `getAll` result exactly once (the zombie pass skips
every key that has a PID record, so the two paths never duplicate);
every PID record whose derived socket fails to connect has that socket
file removed, and every recordless socket file whose probe is refused is
removed as a zombie; `getByName` performs exactly the removals of
`getAll`. -/
theorem discovery_reconciliation
    (probe : String → Probe) (stateOf : String → Option RemoteState)
    (pidRefs : List PidRef) (socketRefs : List SocketRef)
    (k name : String) (rs : RemoteState)
    (hnp : (pidRefs.map (fun pr => pr.key)).Nodup)
    (hns : (socketRefs.map (fun sr => sr.key)).Nodup)
    (hkeys : ∀ sr ∈ socketRefs, sr.socketPath = socketPathOf sr.key) :
    ((k ∈ pidRefs.map (fun pr => pr.key) ∨
        (∃ sr ∈ socketRefs, sr.key = k ∧
          stateOf (socketPathOf k) = some rs)) →
      probe (socketPathOf k) = Probe.connected →
      ((getAllM false probe stateOf pidRefs socketRefs).1.countP
        (fun r => r.key == k)) = 1) ∧
    (∀ pr ∈ pidRefs, probe (socketPathOf pr.key) ≠ Probe.connected →
      socketPathOf pr.key ∈ (getAllM false probe stateOf pidRefs socketRefs).2) ∧
    (∀ sr ∈ socketRefs, (∀ pr ∈ pidRefs, pr.key ≠ sr.key) →
      probe sr.socketPath = Probe.refusedLike →
      sr.socketPath ∈ (getAllM false probe stateOf pidRefs socketRefs).2) ∧
    (getByNameM probe stateOf pidRefs socketRefs name).2 =
      (getAllM false probe stateOf pidRefs socketRefs).2 := by
  have hgetall : getAllM false probe stateOf pidRefs socketRefs =
      ((pidProbe probe pidRefs).1 ++
        (zombieProbe probe stateOf
          (socketRefs.filter
            (fun sr => !(pidRefs.any (fun pr => pr.key == sr.key))))).1,
       (pidProbe probe pidRefs).2 ++
        (zombieProbe probe stateOf
          (socketRefs.filter
            (fun sr => !(pidRefs.any (fun pr => pr.key == sr.key))))).2) := by
    rfl
  refine ⟨fun hsrc hcon => ?_, fun pr hpr hnc => ?_, fun sr hsr hnopid hrl => ?_, rfl⟩
  · rw [hgetall, List.countP_append]
    by_cases hkp : k ∈ pidRefs.map (fun pr => pr.key)
    · obtain ⟨pr0, hpr0, hpr0k⟩ := List.mem_map.mp hkp
      have h1 := pidProbe_count_one probe k pidRefs hnp ⟨pr0, hpr0, hpr0k⟩ hcon
      have h2 := zombieProbe_count_zero probe stateOf k
        (socketRefs.filter (fun sr => !(pidRefs.any (fun pr => pr.key == sr.key))))
        (by
          intro sr hsr hsrk
          rw [List.mem_filter] at hsr
          have hany : pidRefs.any (fun pr => pr.key == sr.key) = false := by
            simpa using hsr.2
          have := List.any_eq_false.mp hany pr0 hpr0
          apply this
          rw [hsrk, hpr0k]
          exact beq_self_eq_true k)
      omega
    · rcases hsrc with hkp2 | ⟨sr0, hsr0, hsr0k, hsr0st⟩
      · exact absurd hkp2 hkp
      · have h1 := pidProbe_count_zero probe k pidRefs
          (fun pr hpr hprk =>
            hkp (hprk ▸ List.mem_map_of_mem (fun pr => pr.key) hpr))
        have hsr0path : sr0.socketPath = socketPathOf k := by
          rw [hkeys sr0 hsr0, hsr0k]
        have hfilter : sr0 ∈ socketRefs.filter
            (fun sr => !(pidRefs.any (fun pr => pr.key == sr.key))) := by
          rw [List.mem_filter]
          refine ⟨hsr0, ?_⟩
          rw [Bool.not_eq_true', List.any_eq_false]
          intro pr hpr
          rw [beq_iff_eq]
          intro heq
          refine hkp ?_
          rw [← hsr0k, ← heq]
          exact List.mem_map_of_mem (fun pr => pr.key) hpr
        have hndf : ((socketRefs.filter
            (fun sr => !(pidRefs.any (fun pr => pr.key == sr.key)))).map
              (fun sr => sr.key)).Nodup :=
          ((List.filter_sublist socketRefs).map (fun sr => sr.key)).nodup hns
        have h2 := zombieProbe_count_one probe stateOf k
          (socketRefs.filter (fun sr => !(pidRefs.any (fun pr => pr.key == sr.key))))
          hndf
          ⟨sr0, hfilter, hsr0k, by rw [hsr0path]; exact hcon,
            by rw [hsr0path, hsr0st]; rfl⟩
        omega
  · rw [hgetall]
    exact List.mem_append_left _ (pidProbe_removed probe pidRefs pr hpr hnc)
  · rw [hgetall]
    refine List.mem_append_right _ ?_
    refine zombieProbe_removed probe stateOf _ sr ?_ hrl
    rw [List.mem_filter]
    refine ⟨hsr, ?_⟩
    rw [Bool.not_eq_true', List.any_eq_false]
    intro pr hpr
    simpa using hnopid pr hpr

/-- C9 witness: the round trip on a concrete one-worker orchestrator
with the key "hello". -/
theorem state_roundtrip_witness :
    ((stateOp (stateOp stW (some (singletonMap "hello" "world"))).1 none).2 ≠ [] ∧
      ∀ s ∈ (stateOp (stateOp stW (some (singletonMap "hello" "world"))).1 none).2,
        s.data "hello" = some "world") ∧
    (∀ q, (∀ w ∈ stW.workerMonitors, w.data q = none) → q ≠ "hello" →
      ∀ s ∈ (stateOp (stateOp stW (some (singletonMap "hello" "world"))).1 none).2,
        s.data q = none) :=
  state_roundtrip stW "hello" "world" (List.cons_ne_nil _ _)

/-- C8 witness: one live orchestrator with key "alpha" that has both a
PID record and a socket file. -/
theorem discovery_reconciliation_witness :
    (("alpha" ∈ [pid0].map (fun pr => pr.key) ∨
        (∃ sr ∈ [sock0], sr.key = "alpha" ∧
          stateOf0 (socketPathOf "alpha") = some rs0)) →
      probe0 (socketPathOf "alpha") = Probe.connected →
      ((getAllM false probe0 stateOf0 [pid0] [sock0]).1.countP
        (fun r => r.key == "alpha")) = 1) ∧
    (∀ pr ∈ [pid0], probe0 (socketPathOf pr.key) ≠ Probe.connected →
      socketPathOf pr.key ∈ (getAllM false probe0 stateOf0 [pid0] [sock0]).2) ∧
    (∀ sr ∈ [sock0], (∀ pr ∈ [pid0], pr.key ≠ sr.key) →
      probe0 sr.socketPath = Probe.refusedLike →
      sr.socketPath ∈ (getAllM false probe0 stateOf0 [pid0] [sock0]).2) ∧
    (getByNameM probe0 stateOf0 [pid0] [sock0] "hello").2 =
      (getAllM false probe0 stateOf0 [pid0] [sock0]).2 :=
  discovery_reconciliation probe0 stateOf0 [pid0] [sock0] "alpha" "hello" rs0
    (by decide) (by decide) (by decide)

end PotJs
